import Mathlib

/-!
Verification of the training script `script/train.py` of the
`it3320e-human-action-recognition-ucf101` repository.

The script is a thin orchestration layer: it discovers video file paths,
splits them into train/validation portions, then runs an epoch loop that
trains, validates, steps a plateau learning-rate scheduler, logs metrics,
conditionally saves a best checkpoint and finally plots a confusion matrix.

We embed the script shallowly:
* the opaque ML-framework parts (model forward pass, loss values, predicted
  labels) enter through `BatchOutcome` oracles: iterating a dataloader in a
  given epoch yields a list of per-batch outcomes (loss value, predicted
  labels, true labels);
* `train_epoch` and `validate` are embedded as `Except`-returning functions
  so that Python's `ZeroDivisionError` is an explicit error value;
* the epoch loop of `main` is a fold over epoch indices, threading the
  `best_val_acc` tracker and the scheduler state, and emitting an event
  trace that records, in program order, the observable actions of each
  iteration (training pass, validation pass, `scheduler.step`, `wandb.log`,
  `torch.save`, confusion-matrix plot);
* the scheduler is abstract (its `step` and the learning rate read back from
  the optimizer are parameters): the claims only concern when and with which
  argument it is stepped;
* real-valued metrics are modelled as rationals.
-/

namespace Train


/-- One batch as seen by the loops in `train_epoch` / `validate`:
the loss value `criterion(outputs, labels).item()`, the per-sample
predicted class indices `outputs.max(1)` and the true labels. -/
structure BatchOutcome where
  loss : ℚ
  predicted : List ℕ
  labels : List ℕ
deriving Repr, DecidableEq

/-- `predicted.eq(labels).sum().item()`: number of positions where the
predicted label equals the true label. -/
def batchCorrect (b : BatchOutcome) : ℕ :=
  ((b.predicted.zip b.labels).filter fun p => p.1 == p.2).length

/-- The accumulation loop shared by `train_epoch` and `validate`:
`running_loss += loss.item(); total += labels.size(0);
correct += predicted.eq(labels).sum().item()` folded over the dataloader. -/
def accumulate (bs : List BatchOutcome) : ℚ × ℕ × ℕ :=
  bs.foldl (fun acc b => (acc.1 + b.loss, acc.2.1 + b.labels.length, acc.2.2 + batchCorrect b))
    (0, 0, 0)

/-- Sum of the per-batch loss values. -/
def totalLoss (bs : List BatchOutcome) : ℚ := (bs.map (·.loss)).sum

/-- Total number of samples seen (`total`). -/
def totalSamples (bs : List BatchOutcome) : ℕ := (bs.map (·.labels.length)).sum

/-- Total number of correct predictions (`correct`). -/
def totalCorrect (bs : List BatchOutcome) : ℕ := (bs.map batchCorrect).sum

/-- The error Python raises on division by zero. -/
def zeroDivisionError : String := "ZeroDivisionError: float division by zero"

/-- `train_epoch` (train.py lines 84–107): accumulate over the dataloader,
then `epoch_loss = running_loss / len(dataloader)` and
`epoch_acc = 100. * correct / total`, each division raising
`ZeroDivisionError` on a zero divisor. -/
def train_epoch (bs : List BatchOutcome) : Except String (ℚ × ℚ) :=
  let acc := accumulate bs
  let running_loss := acc.1
  let total := acc.2.1
  let correct := acc.2.2
  if bs.length = 0 then .error zeroDivisionError
  else
    let epoch_loss := running_loss / (bs.length : ℚ)
    if total = 0 then .error zeroDivisionError
    else .ok (epoch_loss, 100 * (correct : ℚ) / (total : ℚ))

/-- `validate` (train.py lines 110–135): same accumulation, additionally
extending `all_preds` / `all_labels` batch by batch, then
`val_loss = running_loss / len(dataloader)`, `val_acc = 100. * correct / total`. -/
def validate (bs : List BatchOutcome) : Except String (ℚ × ℚ × List ℕ × List ℕ) :=
  let acc := accumulate bs
  let running_loss := acc.1
  let total := acc.2.1
  let correct := acc.2.2
  let all_preds := bs.flatMap (·.predicted)
  let all_labels := bs.flatMap (·.labels)
  if bs.length = 0 then .error zeroDivisionError
  else
    let val_loss := running_loss / (bs.length : ℚ)
    if total = 0 then .error zeroDivisionError
    else .ok (val_loss, 100 * (correct : ℚ) / (total : ℚ), all_preds, all_labels)

/-- A dataloader that yields at least one batch containing at least one sample. -/
def HasSample (bs : List BatchOutcome) : Prop := ∃ b ∈ bs, 0 < b.labels.length

/-- The plateau scheduler (`optim.lr_scheduler.ReduceLROnPlateau`, train.py
lines 188–190) and the optimizer's learning rate are external-framework
state: we keep them abstract.  `step s m` is `scheduler.step(m)` acting on
scheduler/optimizer state `s`; `lr s` is `optimizer.param_groups[0]['lr']`
read in state `s`; `init` is the state right after construction. -/
structure Scheduler (σ : Type) where
  step : σ → ℚ → σ
  lr : σ → ℚ
  init : σ

/-- The dict passed to `torch.save` (train.py lines 224–230): the 1-based
epoch number and the model weights (`model.state_dict()`, opaque, encoded
as a `ℕ` identifier). -/
structure Checkpoint where
  epoch : ℕ
  model_state_dict : ℕ
deriving Repr, DecidableEq

/-- The dict passed to `wandb.log` (train.py lines 210–217). -/
structure LogRecord where
  epoch : ℕ
  train_loss : ℚ
  train_acc : ℚ
  val_loss : ℚ
  val_acc : ℚ
  learning_rate : ℚ
deriving Repr, DecidableEq

/-- Observable actions of one run of the epoch loop, in program order. -/
inductive Event where
  | trainPass (epoch : ℕ)
  | valPass (epoch : ℕ)
  | schedStep (epoch : ℕ) (metric : ℚ)
  | wandbLog (r : LogRecord)
  | save (c : Checkpoint)
  | plot (yTrue yPred : List ℕ) (classNames : List String)
deriving Repr, DecidableEq

/-- Mutable state of the epoch loop in `main`, plus the emitted event trace. -/
structure LoopState (σ : Type) where
  best_val_acc : ℚ
  sched : σ
  history : List (ℚ × ℚ × ℚ × ℚ)
  trace : List Event
deriving Repr

/-- Inputs of one run of `main`'s loop.  `trainB e` / `valB e` are the batch
outcomes produced by iterating the train / validation dataloader in epoch
`e` (the model and the shuffling are opaque, so these are oracles);
`weightsOf e` is the opaque `model.state_dict()` at the end of epoch `e`'s
training. -/
structure TrainCtx (σ : Type) where
  epochs : ℕ
  trainB : ℕ → List BatchOutcome
  valB : ℕ → List BatchOutcome
  sched : Scheduler σ
  weightsOf : ℕ → ℕ
  classes : List String

/-- The body of `for epoch in range(CFG.epochs)` (train.py lines 196–243):
train, validate, `scheduler.step(val_loss)`, `wandb.log`, conditional best
checkpoint save, history append, conditional confusion-matrix plot.
An exception in `train_epoch`/`validate` propagates. -/
def epochBody {σ : Type} (ctx : TrainCtx σ) (e : ℕ) (st : LoopState σ) :
    Except String (LoopState σ) := do
  let (train_loss, train_acc) ← train_epoch (ctx.trainB e)
  let (val_loss, val_acc, all_preds, all_labels) ← validate (ctx.valB e)
  let sched' := ctx.sched.step st.sched val_loss
  let logEvt := Event.wandbLog
    ⟨e + 1, train_loss, train_acc, val_loss, val_acc, ctx.sched.lr sched'⟩
  let saveEvts := if val_acc > st.best_val_acc
    then [Event.save ⟨e + 1, ctx.weightsOf e⟩] else []
  let best' := if val_acc > st.best_val_acc then val_acc else st.best_val_acc
  let plotEvts := if e = ctx.epochs - 1
    then [Event.plot all_labels all_preds ctx.classes] else []
  .ok { best_val_acc := best'
        sched := sched'
        history := st.history ++ [(train_loss, train_acc, val_loss, val_acc)]
        trace := st.trace
          ++ [Event.trainPass e, Event.valPass e, Event.schedStep e val_loss, logEvt]
          ++ saveEvts ++ plotEvts }

/-- State after the first `k` iterations of the loop, starting from
`best_val_acc = 0` (train.py line 193), the freshly-built scheduler and
empty history/trace. -/
def runK {σ : Type} (ctx : TrainCtx σ) : ℕ → Except String (LoopState σ)
  | 0 => .ok ⟨0, ctx.sched.init, [], []⟩
  | k + 1 => do
      let st ← runK ctx k
      epochBody ctx k st

/-- The whole loop of `main`: `CFG.epochs` iterations. -/
def mainLoop {σ : Type} (ctx : TrainCtx σ) : Except String (LoopState σ) :=
  runK ctx ctx.epochs

/-- All dataloaders yield at least one batch with at least one sample, in
every epoch: the loop then never hits a division by zero. -/
def Good {σ : Type} (ctx : TrainCtx σ) : Prop :=
  ∀ e < ctx.epochs, HasSample (ctx.trainB e) ∧ HasSample (ctx.valB e)

/-! Pure per-epoch values of a `Good` run. -/

/-- Training loss of epoch `e`. -/
def tLoss {σ : Type} (ctx : TrainCtx σ) (e : ℕ) : ℚ :=
  totalLoss (ctx.trainB e) / ((ctx.trainB e).length : ℚ)

/-- Training accuracy of epoch `e`. -/
def tAcc {σ : Type} (ctx : TrainCtx σ) (e : ℕ) : ℚ :=
  100 * (totalCorrect (ctx.trainB e) : ℚ) / (totalSamples (ctx.trainB e) : ℚ)

/-- Validation loss of epoch `e`. -/
def vLoss {σ : Type} (ctx : TrainCtx σ) (e : ℕ) : ℚ :=
  totalLoss (ctx.valB e) / ((ctx.valB e).length : ℚ)

/-- Validation accuracy of epoch `e`. -/
def vAcc {σ : Type} (ctx : TrainCtx σ) (e : ℕ) : ℚ :=
  100 * (totalCorrect (ctx.valB e) : ℚ) / (totalSamples (ctx.valB e) : ℚ)

/-- `all_preds` collected by `validate` in epoch `e`. -/
def vPreds {σ : Type} (ctx : TrainCtx σ) (e : ℕ) : List ℕ :=
  (ctx.valB e).flatMap (·.predicted)

/-- `all_labels` collected by `validate` in epoch `e`. -/
def vLabels {σ : Type} (ctx : TrainCtx σ) (e : ℕ) : List ℕ :=
  (ctx.valB e).flatMap (·.labels)

/-- Value of `best_val_acc` at the top of iteration `k` (equivalently,
after `k` completed iterations). -/
def bestAfter {σ : Type} (ctx : TrainCtx σ) : ℕ → ℚ
  | 0 => 0
  | k + 1 => if vAcc ctx k > bestAfter ctx k then vAcc ctx k else bestAfter ctx k

/-- Scheduler/optimizer state after `k` completed iterations. -/
def schedAfter {σ : Type} (ctx : TrainCtx σ) : ℕ → σ
  | 0 => ctx.sched.init
  | k + 1 => ctx.sched.step (schedAfter ctx k) (vLoss ctx k)

/-- The wandb record logged in iteration `k`. -/
def logRecOf {σ : Type} (ctx : TrainCtx σ) (k : ℕ) : LogRecord :=
  ⟨k + 1, tLoss ctx k, tAcc ctx k, vLoss ctx k, vAcc ctx k,
    ctx.sched.lr (schedAfter ctx (k + 1))⟩

/-- The events emitted by iteration `k` of a `Good` run. -/
def epochEvents {σ : Type} (ctx : TrainCtx σ) (k : ℕ) : List Event :=
  [Event.trainPass k, Event.valPass k, Event.schedStep k (vLoss ctx k),
   Event.wandbLog (logRecOf ctx k)]
  ++ (if vAcc ctx k > bestAfter ctx k then [Event.save ⟨k + 1, ctx.weightsOf k⟩] else [])
  ++ (if k = ctx.epochs - 1 then [Event.plot (vLabels ctx k) (vPreds ctx k) ctx.classes] else [])

/-- Trace after `k` completed iterations of a `Good` run. -/
def traceUpto {σ : Type} (ctx : TrainCtx σ) : ℕ → List Event
  | 0 => []
  | k + 1 => traceUpto ctx k ++ epochEvents ctx k

/-- History after `k` completed iterations of a `Good` run. -/
def historyUpto {σ : Type} (ctx : TrainCtx σ) : ℕ → List (ℚ × ℚ × ℚ × ℚ)
  | 0 => []
  | k + 1 => historyUpto ctx k ++ [(tLoss ctx k, tAcc ctx k, vLoss ctx k, vAcc ctx k)]

/-! Event classifiers used to state trace properties. -/

/-- Training- or validation-pass events. -/
def isPass : Event → Bool
  | .trainPass _ => true
  | .valPass _ => true
  | _ => false

/-- Scheduler steps of epoch `e`. -/
def isSchedOf (e : ℕ) : Event → Bool
  | .schedStep k _ => k == e
  | _ => false

/-- wandb logs of (0-based) epoch `e` (the record carries `e + 1`). -/
def isLogOf (e : ℕ) : Event → Bool
  | .wandbLog r => r.epoch == e + 1
  | _ => false

/-- Checkpoint saves of (0-based) epoch `e` (the record carries `e + 1`). -/
def isSaveOf (e : ℕ) : Event → Bool
  | .save c => c.epoch == e + 1
  | _ => false

/-- Any checkpoint save. -/
def isSave : Event → Bool
  | .save _ => true
  | _ => false

/-- Any confusion-matrix plot. -/
def isPlot : Event → Bool
  | .plot _ _ _ => true
  | _ => false

/-- The (possibly empty) list of save events of iteration `k`. -/
def saveEventsOf {σ : Type} (ctx : TrainCtx σ) (k : ℕ) : List Event :=
  if vAcc ctx k > bestAfter ctx k then [Event.save ⟨k + 1, ctx.weightsOf k⟩] else []

/-! Concrete loop inputs used to evaluate the loop theorems. -/

/-- A concrete scheduler instance (halves its state at each step). -/
def sampleSched : Scheduler ℚ where
  step := fun s _ => s / 2
  lr := fun s => s
  init := 1 / 10000

/-- A concrete two-epoch run: validation accuracy 50% in epoch 0, 100% in
epoch 1, so both epochs write a checkpoint. -/
def sampleCtx : TrainCtx ℚ where
  epochs := 2
  trainB := fun _ => [⟨1, [0, 1], [0, 1]⟩]
  valB := fun e => if e = 0 then [⟨2, [0, 0], [0, 1]⟩] else [⟨1, [0, 1], [0, 1]⟩]
  sched := sampleSched
  weightsOf := fun e => e + 10
  classes := ["ApplyEyeMakeup"]

/-! Configuration (`class CFG`, train.py lines 44–82) and dataset
discovery/split (`main`, lines 153–163). -/

namespace CFG

/-- The values accepted by the `--dataset` command-line option. -/
inductive DatasetChoice where
  | ucf101
  | ucf11
deriving DecidableEq, Repr

/-- `CFG.num_classes` (train.py lines 77–80). -/
def num_classes : DatasetChoice → ℕ
  | .ucf101 => 101
  | .ucf11 => 11

/-- `CFG.classes` (train.py lines 51–73): the hard-coded UCF101 class list. -/
def classes : List String := [
  "ApplyEyeMakeup", "ApplyLipstick", "Archery", "BabyCrawling", "BalanceBeam",
  "BandMarching", "BaseballPitch", "Basketball", "BasketballDunk", "BenchPress",
  "Biking", "Billiards", "BlowDryHair", "BlowingCandles", "BodyWeightSquats",
  "Bowling", "BoxingPunchingBag", "BoxingSpeedBag", "BreastStroke", "BrushingTeeth",
  "CleanAndJerk", "CliffDiving", "CricketBowling", "CricketShot", "CuttingInKitchen",
  "Diving", "Drumming", "Fencing", "FieldHockeyPenalty", "FloorGymnastics",
  "FrisbeeCatch", "FrontCrawl", "GolfSwing", "Haircut", "HammerThrow",
  "Hammering", "HandstandPushups", "HandstandWalking", "HeadMassage", "HighJump",
  "HorseRace", "HorseRiding", "HulaHoop", "IceDancing", "JavelinThrow",
  "JugglingBalls", "JumpingJack", "JumpRope", "Kayaking", "Knitting",
  "LongJump", "Lunges", "MilitaryParade", "Mixing", "MoppingFloor",
  "Nunchucks", "ParallelBars", "PizzaTossing", "PlayingCello", "PlayingDaf",
  "PlayingDhol", "PlayingFlute", "PlayingGuitar", "PlayingPiano", "PlayingSitar",
  "PlayingTabla", "PlayingViolin", "PoleVault", "PommelHorse", "PullUps",
  "Punch", "PushUps", "Rafting", "RockClimbingIndoor", "RopeClimbing",
  "Rowing", "SalsaSpin", "ShavingBeard", "Shotput", "SkateBoarding",
  "Skiing", "Skijet", "SkyDiving", "SoccerJuggling", "SoccerPenalty",
  "StillRings", "SumoWrestling", "Surfing", "Swing", "TableTennisShot",
  "TaiChi", "TennisSwing", "ThrowDiscus", "TrampolineJumping", "Typing",
  "UnevenBars", "VolleyballSpiking", "WalkingWithDog", "WallPushups", "WritingOnBoard",
  "YoYo"]

end CFG

/-- Model construction (train.py line 184):
`ResNetLSTM(num_classes=len(CFG.classes))` — the `--dataset` choice (and the
`CFG.num_classes` derived from it) is not consulted. -/
def modelOutputDim (_ : CFG.DatasetChoice) : ℕ := CFG.classes.length

/-- The glob pattern of train.py line 156 for one class directory. -/
def globPattern (dataset_path cls : String) : String :=
  dataset_path ++ "/UCF101/train/" ++ cls ++ "/**.avi"

/-- Inputs of the dataset-discovery phase: the filesystem (glob results) as
an oracle, plus `CFG.videos_per_class` and `CFG.dataset_path`. -/
structure DataCtx where
  globFn : String → List String
  videos_per_class : ℕ
  dataset_path : String

/-- Paths collected for one class (line 156):
`glob.glob(f"{path}/UCF101/train/{cls}/**.avi")[:videos_per_class]`. -/
def collectClass (d : DataCtx) (cls : String) : List String :=
  (d.globFn (globPattern d.dataset_path cls)).take d.videos_per_class

/-- The body of `for i, cls in enumerate(CFG.classes)` (lines 155–158),
carrying the running class index `i`: `file_paths += sub_file_paths;
targets += [i] * len(sub_file_paths)`. -/
def collectAux (d : DataCtx) (i : ℕ) : List String → List String × List ℕ
  | [] => ([], [])
  | cls :: rest =>
      let sub := collectClass d cls
      let tail := collectAux d (i + 1) rest
      (sub ++ tail.1, List.replicate sub.length i ++ tail.2)

/-- The full collection loop (lines 153–158), starting at class index 0. -/
def collect (d : DataCtx) (cs : List String) : List String × List ℕ :=
  collectAux d 0 cs

/-- The linear congruential generator standing in for numpy's PRNG stream. -/
def lcg (s : ℕ) : ℕ := (s * 1103515245 + 12345) % 2147483648

/-- Modelled from the spec: `sklearn.model_selection.train_test_split`
(called at train.py lines 161–163) is external-library code, absent from
this repository. Per its documented behaviour it derives a pseudo-random
permutation of the `n` item indices from `random_state` (falling back to
ambient entropy when `random_state` is `None`), reserves
`ceil(test_size * n)` indices for the test portion, and indexes every input
sequence by the test index list and by the complementary train index list;
it returns `X_train, X_test, y_train, y_test`. The seed-determined
permutation is modelled as a rotation of the index list by an LCG value. -/
def train_test_split (entropy : ℕ) (random_state : Option ℕ) (test_size : ℚ)
    (X : List String) (Y : List ℕ) :
    List String × List String × List ℕ × List ℕ :=
  let n := X.length
  let seed := match random_state with
    | some s => s
    | none => entropy
  let n_test := Nat.ceil (test_size * (n : ℚ))
  let perm := (List.range n).rotate (lcg seed)
  let ind_test := perm.take n_test
  let ind_train := perm.drop n_test
  (ind_train.map (fun i => X.getD i ""), ind_test.map (fun i => X.getD i ""),
   ind_train.map (fun i => Y.getD i 0), ind_test.map (fun i => Y.getD i 0))

/-- The dataset phase of `main` (lines 153–163): collect per-class paths
and targets, then split with `test_size=0.2, random_state=42`. -/
def loadAndSplit (entropy : ℕ) (d : DataCtx) :
    List String × List String × List ℕ × List ℕ :=
  train_test_split entropy (some 42) (1 / 5)
    (collect d CFG.classes).1 (collect d CFG.classes).2

/-- A concrete filesystem with six videos of the first class and no
others: 6 collected items, of which the split reserves `ceil(6/5) = 2` for
validation — strictly more than 20% of 6. -/
def cexData : DataCtx where
  globFn := fun p => if p = globPattern "" "ApplyEyeMakeup"
    then ["v1.avi", "v2.avi", "v3.avi", "v4.avi", "v5.avi", "v6.avi"] else []
  videos_per_class := 50
  dataset_path := ""

/-- A filesystem agreeing with `cexData` on every queried class-directory
pattern but differing on an unqueried path. -/
def cexData2 : DataCtx where
  globFn := fun p => if p = "unqueried/path" then ["ghost.avi"]
    else if p = globPattern "" "ApplyEyeMakeup"
      then ["v1.avi", "v2.avi", "v3.avi", "v4.avi", "v5.avi", "v6.avi"] else []
  videos_per_class := 50
  dataset_path := ""

theorem accumulate_eq (bs : List BatchOutcome) :
    accumulate bs = (totalLoss bs, totalSamples bs, totalCorrect bs) := by
  suffices h : ∀ (a : ℚ) (t c : ℕ),
      bs.foldl (fun acc b => (acc.1 + b.loss, acc.2.1 + b.labels.length, acc.2.2 + batchCorrect b))
        (a, t, c) = (a + totalLoss bs, t + totalSamples bs, c + totalCorrect bs) by
    simpa [accumulate] using h 0 0 0
  induction bs with
  | nil => intro a t c; simp [totalLoss, totalSamples, totalCorrect]
  | cons b bs ih =>
      intro a t c
      simp only [List.foldl_cons, ih, totalLoss, totalSamples, totalCorrect, List.map_cons,
        List.sum_cons, Prod.mk.injEq]
      refine ⟨by ring, by omega, by omega⟩

theorem totalSamples_pos {bs : List BatchOutcome} (h : HasSample bs) : 0 < totalSamples bs := by
  obtain ⟨b, hb, hpos⟩ := h
  have : b.labels.length ∈ bs.map (·.labels.length) := List.mem_map_of_mem _ hb
  calc 0 < b.labels.length := hpos
    _ ≤ totalSamples bs := List.single_le_sum (fun _ _ => Nat.zero_le _) _ this

theorem length_pos_of_hasSample {bs : List BatchOutcome} (h : HasSample bs) : 0 < bs.length := by
  obtain ⟨b, hb, _⟩ := h
  exact List.length_pos.mpr (fun hnil => by simp [hnil] at hb)

theorem train_epoch_ok {bs : List BatchOutcome} (h : HasSample bs) :
    train_epoch bs =
      .ok (totalLoss bs / (bs.length : ℚ),
           100 * (totalCorrect bs : ℚ) / (totalSamples bs : ℚ)) := by
  have h1 : bs.length ≠ 0 := Nat.pos_iff_ne_zero.mp (length_pos_of_hasSample h)
  have h2 : totalSamples bs ≠ 0 := Nat.pos_iff_ne_zero.mp (totalSamples_pos h)
  simp [train_epoch, accumulate_eq, h1, h2]

theorem validate_ok {bs : List BatchOutcome} (h : HasSample bs) :
    validate bs =
      .ok (totalLoss bs / (bs.length : ℚ),
           100 * (totalCorrect bs : ℚ) / (totalSamples bs : ℚ),
           bs.flatMap (·.predicted), bs.flatMap (·.labels)) := by
  have h1 : bs.length ≠ 0 := Nat.pos_iff_ne_zero.mp (length_pos_of_hasSample h)
  have h2 : totalSamples bs ≠ 0 := Nat.pos_iff_ne_zero.mp (totalSamples_pos h)
  simp [validate, accumulate_eq, h1, h2]

theorem train_epoch_empty : train_epoch [] = .error zeroDivisionError := rfl

theorem validate_empty : validate [] = .error zeroDivisionError := rfl

/-- On a `Good` run the loop never fails and its state after `k` iterations
is described by the pure functions above. -/
theorem runK_eq_of_good {σ : Type} (ctx : TrainCtx σ) (hg : Good ctx) :
    ∀ k ≤ ctx.epochs,
      runK ctx k = .ok ⟨bestAfter ctx k, schedAfter ctx k, historyUpto ctx k, traceUpto ctx k⟩ := by
  intro k
  induction k with
  | zero => intro _; rfl
  | succ k ih =>
      intro hk
      have hlt : k < ctx.epochs := Nat.lt_of_succ_le hk
      have hkle : k ≤ ctx.epochs := Nat.le_of_lt hlt
      obtain ⟨htr, hval⟩ := hg k hlt
      simp only [runK, ih hkle, epochBody, train_epoch_ok htr, validate_ok hval,
        bind, Except.bind, bestAfter, schedAfter, historyUpto, traceUpto, epochEvents,
        logRecOf, tLoss, tAcc, vLoss, vAcc, vPreds, vLabels, List.append_assoc]

theorem epochEvents_filter_pass {σ : Type} (ctx : TrainCtx σ) (k : ℕ) :
    (epochEvents ctx k).filter isPass = [Event.trainPass k, Event.valPass k] := by
  by_cases h1 : vAcc ctx k > bestAfter ctx k <;>
    by_cases h2 : k = ctx.epochs - 1 <;>
      simp [epochEvents, h1, h2, isPass]

theorem epochEvents_filter_sched {σ : Type} (ctx : TrainCtx σ) (k e : ℕ) :
    (epochEvents ctx k).filter (isSchedOf e) =
      if k = e then [Event.schedStep k (vLoss ctx k)] else [] := by
  by_cases h3 : k = e
  · subst h3
    by_cases h1 : vAcc ctx k > bestAfter ctx k <;>
      by_cases h2 : k = ctx.epochs - 1 <;>
        simp [epochEvents, h1, h2, isSchedOf]
  · by_cases h2 : k = ctx.epochs - 1
    · subst h2
      by_cases h1 : vAcc ctx (ctx.epochs - 1) > bestAfter ctx (ctx.epochs - 1) <;>
        simp [epochEvents, h1, h3, isSchedOf]
    · by_cases h1 : vAcc ctx k > bestAfter ctx k <;>
        simp [epochEvents, h1, h2, h3, isSchedOf]

theorem epochEvents_filter_log {σ : Type} (ctx : TrainCtx σ) (k e : ℕ) :
    (epochEvents ctx k).filter (isLogOf e) =
      if k = e then [Event.wandbLog (logRecOf ctx k)] else [] := by
  by_cases h3 : k = e
  · subst h3
    by_cases h1 : vAcc ctx k > bestAfter ctx k <;>
      by_cases h2 : k = ctx.epochs - 1 <;>
        simp [epochEvents, h1, h2, isLogOf, logRecOf]
  · by_cases h2 : k = ctx.epochs - 1
    · subst h2
      by_cases h1 : vAcc ctx (ctx.epochs - 1) > bestAfter ctx (ctx.epochs - 1) <;>
        simp [epochEvents, h1, h3, isLogOf, logRecOf]
    · by_cases h1 : vAcc ctx k > bestAfter ctx k <;>
        simp [epochEvents, h1, h2, h3, isLogOf, logRecOf]

theorem epochEvents_filter_saveOf {σ : Type} (ctx : TrainCtx σ) (k e : ℕ) :
    (epochEvents ctx k).filter (isSaveOf e) =
      if k = e then saveEventsOf ctx k else [] := by
  by_cases h3 : k = e
  · subst h3
    by_cases h1 : vAcc ctx k > bestAfter ctx k <;>
      by_cases h2 : k = ctx.epochs - 1 <;>
        simp [epochEvents, h1, h2, isSaveOf, saveEventsOf]
  · by_cases h2 : k = ctx.epochs - 1
    · subst h2
      by_cases h1 : vAcc ctx (ctx.epochs - 1) > bestAfter ctx (ctx.epochs - 1) <;>
        simp [epochEvents, h1, h3, isSaveOf, saveEventsOf]
    · by_cases h1 : vAcc ctx k > bestAfter ctx k <;>
        simp [epochEvents, h1, h2, h3, isSaveOf, saveEventsOf]

theorem epochEvents_filter_save {σ : Type} (ctx : TrainCtx σ) (k : ℕ) :
    (epochEvents ctx k).filter isSave = saveEventsOf ctx k := by
  by_cases h1 : vAcc ctx k > bestAfter ctx k <;>
    by_cases h2 : k = ctx.epochs - 1 <;>
      simp [epochEvents, h1, h2, isSave, saveEventsOf]

theorem epochEvents_filter_plot {σ : Type} (ctx : TrainCtx σ) (k : ℕ) :
    (epochEvents ctx k).filter isPlot =
      if k = ctx.epochs - 1
        then [Event.plot (vLabels ctx k) (vPreds ctx k) ctx.classes] else [] := by
  by_cases h1 : vAcc ctx k > bestAfter ctx k <;>
    by_cases h2 : k = ctx.epochs - 1 <;>
      simp [epochEvents, h1, h2, isPlot]

/-- Events matching an epoch-`e`-tagged classifier appear in the trace as
soon as iteration `e` has run, and only from its block. -/
theorem traceUpto_filter_single {σ : Type} (ctx : TrainCtx σ) (p : Event → Bool) (e : ℕ)
    (out : List Event)
    (hblock : ∀ k, (epochEvents ctx k).filter p = if k = e then out else []) :
    ∀ k, (traceUpto ctx k).filter p = if e < k then out else [] := by
  intro k
  induction k with
  | zero => simp [traceUpto]
  | succ k ih =>
      rw [traceUpto, List.filter_append, ih, hblock k]
      by_cases h1 : e < k
      · have h2 : ¬ (k = e) := by omega
        have h3 : e < k + 1 := by omega
        simp [h1, h2, h3]
      · by_cases h2 : k = e
        · have h3 : e < k + 1 := by omega
          simp [h1, h2, h3]
        · have h3 : ¬ (e < k + 1) := by omega
          simp [h1, h2, h3]

theorem traceUpto_filter_pass {σ : Type} (ctx : TrainCtx σ) (k : ℕ) :
    (traceUpto ctx k).filter isPass =
      (List.range k).flatMap (fun e => [Event.trainPass e, Event.valPass e]) := by
  induction k with
  | zero => simp [traceUpto]
  | succ k ih =>
      rw [traceUpto, List.filter_append, ih, epochEvents_filter_pass, List.range_succ]
      simp

theorem traceUpto_filter_sched {σ : Type} (ctx : TrainCtx σ) (k e : ℕ) :
    (traceUpto ctx k).filter (isSchedOf e) =
      if e < k then [Event.schedStep e (vLoss ctx e)] else [] := by
  have h := traceUpto_filter_single ctx (isSchedOf e) e [Event.schedStep e (vLoss ctx e)]
    (fun j => by rw [epochEvents_filter_sched]; by_cases hj : j = e <;> simp [hj])
  exact h k

theorem traceUpto_filter_log {σ : Type} (ctx : TrainCtx σ) (k e : ℕ) :
    (traceUpto ctx k).filter (isLogOf e) =
      if e < k then [Event.wandbLog (logRecOf ctx e)] else [] := by
  have h := traceUpto_filter_single ctx (isLogOf e) e [Event.wandbLog (logRecOf ctx e)]
    (fun j => by rw [epochEvents_filter_log]; by_cases hj : j = e <;> simp [hj])
  exact h k

theorem traceUpto_filter_saveOf {σ : Type} (ctx : TrainCtx σ) (k e : ℕ) :
    (traceUpto ctx k).filter (isSaveOf e) =
      if e < k then saveEventsOf ctx e else [] := by
  have h := traceUpto_filter_single ctx (isSaveOf e) e (saveEventsOf ctx e)
    (fun j => by rw [epochEvents_filter_saveOf]; by_cases hj : j = e <;> simp [hj])
  exact h k

theorem traceUpto_filter_plot {σ : Type} (ctx : TrainCtx σ) (k : ℕ) (hk : k ≤ ctx.epochs) :
    (traceUpto ctx k).filter isPlot =
      if ctx.epochs - 1 < k
        then [Event.plot (vLabels ctx (ctx.epochs - 1)) (vPreds ctx (ctx.epochs - 1)) ctx.classes]
        else [] := by
  induction k with
  | zero => simp [traceUpto]
  | succ k ih =>
      rw [traceUpto, List.filter_append, ih (by omega), epochEvents_filter_plot]
      by_cases h2 : k = ctx.epochs - 1
      · subst h2
        simp
      · by_cases h1 : ctx.epochs - 1 < k
        · have h3 : ctx.epochs - 1 < k + 1 := by omega
          simp [h1, h2, h3]
        · have h3 : ¬ (ctx.epochs - 1 < k + 1) := by omega
          simp [h1, h2, h3]

/-! Properties of the `best_val_acc` tracker. -/

theorem vAcc_nonneg {σ : Type} (ctx : TrainCtx σ) (e : ℕ) : 0 ≤ vAcc ctx e := by
  unfold vAcc
  positivity

theorem bestAfter_nonneg {σ : Type} (ctx : TrainCtx σ) (k : ℕ) : 0 ≤ bestAfter ctx k := by
  induction k with
  | zero => exact le_refl 0
  | succ k ih =>
      rw [bestAfter]
      by_cases h : vAcc ctx k > bestAfter ctx k
      · simpa [h] using vAcc_nonneg ctx k
      · simpa [h] using ih

theorem bestAfter_le_succ {σ : Type} (ctx : TrainCtx σ) (k : ℕ) :
    bestAfter ctx k ≤ bestAfter ctx (k + 1) := by
  rw [bestAfter]
  by_cases h : vAcc ctx k > bestAfter ctx k
  · simpa [h] using le_of_lt h
  · simp [h]

theorem bestAfter_mono {σ : Type} (ctx : TrainCtx σ) {j k : ℕ} (h : j ≤ k) :
    bestAfter ctx j ≤ bestAfter ctx k := by
  induction k with
  | zero => simp [Nat.le_zero.mp h]
  | succ k ih =>
      rcases Nat.lt_succ_iff_lt_or_eq.mp (Nat.lt_succ_of_le h) with h' | h'
      · exact le_trans (ih (Nat.le_of_lt_succ h')) (bestAfter_le_succ ctx k)
      · rw [h']

theorem vAcc_le_bestAfter {σ : Type} (ctx : TrainCtx σ) {i k : ℕ} (h : i < k) :
    vAcc ctx i ≤ bestAfter ctx k := by
  have h1 : vAcc ctx i ≤ bestAfter ctx (i + 1) := by
    rw [bestAfter]
    by_cases hc : vAcc ctx i > bestAfter ctx i
    · simp [hc]
    · simpa [hc] using le_of_not_lt hc
  exact le_trans h1 (bestAfter_mono ctx h)

/-- `best_val_acc` after `k` iterations is the running maximum, seeded with
the initialization value `0`, of the validation accuracies of the first `k`
epochs. -/
theorem bestAfter_eq_foldl {σ : Type} (ctx : TrainCtx σ) (k : ℕ) :
    bestAfter ctx k = ((List.range k).map (vAcc ctx)).foldl max 0 := by
  induction k with
  | zero => rfl
  | succ k ih =>
      rw [bestAfter, ih, List.range_succ, List.map_append, List.foldl_append]
      simp only [List.map_cons, List.map_nil, List.foldl_cons, List.foldl_nil]
      rcases lt_or_le (((List.range k).map (vAcc ctx)).foldl max 0) (vAcc ctx k) with h | h
      · rw [if_pos h, max_eq_right (le_of_lt h)]
      · rw [if_neg (not_lt.mpr h), max_eq_left h]

/-- The maximum is attained at one of the completed epochs (as soon as at
least one epoch has completed). -/
theorem bestAfter_attained {σ : Type} (ctx : TrainCtx σ) :
    ∀ k, ∃ i < k + 1, vAcc ctx i = bestAfter ctx (k + 1) := by
  intro k
  induction k with
  | zero =>
      refine ⟨0, Nat.zero_lt_one, ?_⟩
      rw [bestAfter]
      by_cases h : vAcc ctx 0 > bestAfter ctx 0
      · simp [h]
      · rw [if_neg h]
        have h0 : bestAfter ctx 0 = 0 := rfl
        have := vAcc_nonneg ctx 0
        rw [h0] at h ⊢
        exact le_antisymm (le_of_not_lt h) this
  | succ k ih =>
      rw [bestAfter]
      by_cases h : vAcc ctx (k + 1) > bestAfter ctx (k + 1)
      · exact ⟨k + 1, Nat.lt_succ_self _, by simp [h]⟩
      · obtain ⟨i, hi, hacc⟩ := ih
        exact ⟨i, Nat.lt_succ_of_lt hi, by simp [h, hacc]⟩

/-- The checkpoint file's content after `k` iterations: either no save ever
happened and the tracker still holds `0`, or the last save is from some
epoch `j` whose validation accuracy equals the tracker. -/
theorem lastSave_spec {σ : Type} (ctx : TrainCtx σ) :
    ∀ k, ((traceUpto ctx k).filter isSave = [] ∧ bestAfter ctx k = 0) ∨
      (∃ j < k, ((traceUpto ctx k).filter isSave).getLast? =
          some (Event.save ⟨j + 1, ctx.weightsOf j⟩) ∧ vAcc ctx j = bestAfter ctx k) := by
  intro k
  induction k with
  | zero => exact Or.inl ⟨rfl, rfl⟩
  | succ k ih =>
      rw [traceUpto, List.filter_append, epochEvents_filter_save]
      by_cases h : vAcc ctx k > bestAfter ctx k
      · refine Or.inr ⟨k, Nat.lt_succ_self _, ?_, ?_⟩
        · rw [saveEventsOf, if_pos h, List.getLast?_concat]
        · rw [bestAfter, if_pos h]
      · rw [saveEventsOf, if_neg h, List.append_nil]
        have hbest : bestAfter ctx (k + 1) = bestAfter ctx k := by rw [bestAfter, if_neg h]
        rcases ih with ⟨hnil, hzero⟩ | ⟨j, hj, hlast, hacc⟩
        · exact Or.inl ⟨hnil, by rw [hbest, hzero]⟩
        · exact Or.inr ⟨j, Nat.lt_succ_of_lt hj, hlast, by rw [hbest, hacc]⟩

theorem historyUpto_length {σ : Type} (ctx : TrainCtx σ) (k : ℕ) :
    (historyUpto ctx k).length = k := by
  induction k with
  | zero => rfl
  | succ k ih => rw [historyUpto]; simp [ih]

/-- C1: during the epoch loop, a checkpoint is written in epoch `e` if and
only if that epoch's validation accuracy strictly exceeds the best
validation accuracy seen in all previous epochs (best initialized to `0`);
the saved record holds the 1-based epoch number and the model's weights;
and at every point of the run the last persisted checkpoint is from an
epoch whose validation accuracy is maximal among all completed epochs. -/
theorem checkpoint_policy {σ : Type} (ctx : TrainCtx σ) (hg : Good ctx)
    (k : ℕ) (hk : k ≤ ctx.epochs) :
    ∃ st, runK ctx k = .ok st ∧
      (∀ e < k, st.trace.filter (isSaveOf e) =
        if ((List.range e).map (vAcc ctx)).foldl max 0 < vAcc ctx e
          then [Event.save ⟨e + 1, ctx.weightsOf e⟩] else []) ∧
      (st.trace.filter isSave = [] ∨
        ∃ j < k, (st.trace.filter isSave).getLast? =
            some (Event.save ⟨j + 1, ctx.weightsOf j⟩) ∧ ∀ i < k, vAcc ctx i ≤ vAcc ctx j) := by
  refine ⟨_, runK_eq_of_good ctx hg k hk, ?_, ?_⟩
  · intro e he
    rw [traceUpto_filter_saveOf, if_pos he, saveEventsOf, bestAfter_eq_foldl]
  · rcases lastSave_spec ctx k with ⟨hnil, _⟩ | ⟨j, hj, hlast, hacc⟩
    · exact Or.inl hnil
    · refine Or.inr ⟨j, hj, hlast, fun i hi => ?_⟩
      rw [hacc]
      exact vAcc_le_bestAfter ctx hi

/-- C2: the `best_val_acc` tracker equals, after every completed epoch, the
maximum validation accuracy over the completed epochs (`0` before the first
epoch, and the maximum is attained at some completed epoch); it is
monotonically non-decreasing; and it changes in an epoch exactly when that
epoch writes a checkpoint. -/
theorem best_tracker_invariant {σ : Type} (ctx : TrainCtx σ) (hg : Good ctx)
    (e : ℕ) (he : e < ctx.epochs) :
    ∃ st0 st st', runK ctx 0 = .ok st0 ∧ st0.best_val_acc = 0 ∧
      runK ctx e = .ok st ∧ runK ctx (e + 1) = .ok st' ∧
      st'.best_val_acc = ((List.range (e + 1)).map (vAcc ctx)).foldl max 0 ∧
      (∀ i < e + 1, vAcc ctx i ≤ st'.best_val_acc) ∧
      (∃ i < e + 1, vAcc ctx i = st'.best_val_acc) ∧
      st.best_val_acc ≤ st'.best_val_acc ∧
      (st'.best_val_acc ≠ st.best_val_acc ↔ st'.trace.filter (isSaveOf e) ≠ []) := by
  refine ⟨_, _, _, runK_eq_of_good ctx hg 0 (Nat.zero_le _), rfl,
    runK_eq_of_good ctx hg e (le_of_lt he), runK_eq_of_good ctx hg (e + 1) he, ?_, ?_, ?_, ?_, ?_⟩
  · exact bestAfter_eq_foldl ctx (e + 1)
  · intro i hi
    exact vAcc_le_bestAfter ctx hi
  · exact bestAfter_attained ctx e
  · exact bestAfter_le_succ ctx e
  · rw [traceUpto_filter_saveOf, if_pos (Nat.lt_succ_self e), saveEventsOf, bestAfter]
    by_cases h : vAcc ctx e > bestAfter ctx e
    · simp only [if_pos h]
      exact ⟨fun _ => by simp, fun _ => ne_of_gt h⟩
    · simp only [if_neg h]
      exact ⟨fun hne => absurd rfl hne, fun hne => absurd rfl hne⟩

/-- C3: in every epoch iteration the plateau scheduler is stepped exactly
once, with that epoch's validation loss as argument, right after the
validation pass and before both the `wandb.log` call and the conditional
checkpoint write of the epoch. -/
theorem scheduler_step_placement {σ : Type} (ctx : TrainCtx σ) (hg : Good ctx)
    (e : ℕ) (he : e < ctx.epochs) :
    ∃ st st' stF, runK ctx e = .ok st ∧ runK ctx (e + 1) = .ok st' ∧
      mainLoop ctx = .ok stF ∧
      st'.trace = st.trace
        ++ [Event.trainPass e, Event.valPass e, Event.schedStep e (vLoss ctx e),
            Event.wandbLog (logRecOf ctx e)]
        ++ saveEventsOf ctx e
        ++ (if e = ctx.epochs - 1
              then [Event.plot (vLabels ctx e) (vPreds ctx e) ctx.classes] else []) ∧
      stF.trace.filter (isSchedOf e) = [Event.schedStep e (vLoss ctx e)] := by
  refine ⟨_, _, _, runK_eq_of_good ctx hg e (le_of_lt he), runK_eq_of_good ctx hg (e + 1) he,
    runK_eq_of_good ctx hg ctx.epochs (le_refl _), ?_, ?_⟩
  · rw [traceUpto, epochEvents, saveEventsOf]
    simp [List.append_assoc]
  · rw [traceUpto_filter_sched, if_pos he]

/-- C4: the loop runs exactly `epochs` iterations, each consisting of one
training pass followed by one validation pass, in epoch order. -/
theorem epoch_loop_structure {σ : Type} (ctx : TrainCtx σ) (hg : Good ctx) :
    ∃ st, mainLoop ctx = .ok st ∧
      st.trace.filter isPass =
        (List.range ctx.epochs).flatMap (fun e => [Event.trainPass e, Event.valPass e]) ∧
      st.history.length = ctx.epochs := by
  refine ⟨_, runK_eq_of_good ctx hg ctx.epochs (le_refl _), ?_, ?_⟩
  · exact traceUpto_filter_pass ctx ctx.epochs
  · exact historyUpto_length ctx ctx.epochs

/-- C5: every epoch logs exactly one wandb record, carrying the 1-based
epoch number, train loss, train accuracy, validation loss, validation
accuracy and the learning rate read from the optimizer after the scheduler
step of that epoch. -/
theorem wandb_log_per_epoch {σ : Type} (ctx : TrainCtx σ) (hg : Good ctx)
    (e : ℕ) (he : e < ctx.epochs) :
    ∃ st, mainLoop ctx = .ok st ∧
      st.trace.filter (isLogOf e) =
        [Event.wandbLog ⟨e + 1, tLoss ctx e, tAcc ctx e, vLoss ctx e, vAcc ctx e,
          ctx.sched.lr (schedAfter ctx (e + 1))⟩] := by
  refine ⟨_, runK_eq_of_good ctx hg ctx.epochs (le_refl _), ?_⟩
  rw [traceUpto_filter_log, if_pos he]
  rfl

/-- C6: the confusion-matrix plot happens exactly once over the whole run
when at least one epoch is configured — in the final iteration, from that
iteration's validation labels and predictions — and never when zero epochs
are configured. -/
theorem confusion_matrix_once {σ : Type} (ctx : TrainCtx σ) (hg : Good ctx) :
    ∃ st, mainLoop ctx = .ok st ∧
      st.trace.filter isPlot =
        (if ctx.epochs = 0 then []
         else [Event.plot (vLabels ctx (ctx.epochs - 1))
                 (vPreds ctx (ctx.epochs - 1)) ctx.classes]) := by
  refine ⟨_, runK_eq_of_good ctx hg ctx.epochs (le_refl _), ?_⟩
  rw [traceUpto_filter_plot ctx ctx.epochs (le_refl _)]
  by_cases h : ctx.epochs = 0
  · simp [h]
  · have h1 : ctx.epochs - 1 < ctx.epochs := by omega
    simp [h, h1]

theorem sampleCtx_good : Good sampleCtx := by
  unfold Good HasSample sampleCtx
  decide

theorem checkpoint_policy_witness :
    ∃ st, runK sampleCtx 2 = .ok st ∧
      (∀ e < 2, st.trace.filter (isSaveOf e) =
        if ((List.range e).map (vAcc sampleCtx)).foldl max 0 < vAcc sampleCtx e
          then [Event.save ⟨e + 1, sampleCtx.weightsOf e⟩] else []) ∧
      (st.trace.filter isSave = [] ∨
        ∃ j < 2, (st.trace.filter isSave).getLast? =
            some (Event.save ⟨j + 1, sampleCtx.weightsOf j⟩) ∧
          ∀ i < 2, vAcc sampleCtx i ≤ vAcc sampleCtx j) :=
  checkpoint_policy sampleCtx sampleCtx_good 2 (by decide)

theorem best_tracker_invariant_witness :
    ∃ st0 st st', runK sampleCtx 0 = .ok st0 ∧ st0.best_val_acc = 0 ∧
      runK sampleCtx 1 = .ok st ∧ runK sampleCtx (1 + 1) = .ok st' ∧
      st'.best_val_acc = ((List.range (1 + 1)).map (vAcc sampleCtx)).foldl max 0 ∧
      (∀ i < 1 + 1, vAcc sampleCtx i ≤ st'.best_val_acc) ∧
      (∃ i < 1 + 1, vAcc sampleCtx i = st'.best_val_acc) ∧
      st.best_val_acc ≤ st'.best_val_acc ∧
      (st'.best_val_acc ≠ st.best_val_acc ↔ st'.trace.filter (isSaveOf 1) ≠ []) :=
  best_tracker_invariant sampleCtx sampleCtx_good 1 (by decide)

theorem scheduler_step_placement_witness :
    ∃ st st' stF, runK sampleCtx 0 = .ok st ∧ runK sampleCtx (0 + 1) = .ok st' ∧
      mainLoop sampleCtx = .ok stF ∧
      st'.trace = st.trace
        ++ [Event.trainPass 0, Event.valPass 0, Event.schedStep 0 (vLoss sampleCtx 0),
            Event.wandbLog (logRecOf sampleCtx 0)]
        ++ saveEventsOf sampleCtx 0
        ++ (if 0 = sampleCtx.epochs - 1
              then [Event.plot (vLabels sampleCtx 0) (vPreds sampleCtx 0) sampleCtx.classes]
              else []) ∧
      stF.trace.filter (isSchedOf 0) = [Event.schedStep 0 (vLoss sampleCtx 0)] :=
  scheduler_step_placement sampleCtx sampleCtx_good 0 (by decide)

theorem epoch_loop_structure_witness :
    ∃ st, mainLoop sampleCtx = .ok st ∧
      st.trace.filter isPass =
        (List.range sampleCtx.epochs).flatMap
          (fun e => [Event.trainPass e, Event.valPass e]) ∧
      st.history.length = sampleCtx.epochs :=
  epoch_loop_structure sampleCtx sampleCtx_good

theorem wandb_log_per_epoch_witness :
    ∃ st, mainLoop sampleCtx = .ok st ∧
      st.trace.filter (isLogOf 0) =
        [Event.wandbLog ⟨0 + 1, tLoss sampleCtx 0, tAcc sampleCtx 0, vLoss sampleCtx 0,
          vAcc sampleCtx 0, sampleCtx.sched.lr (schedAfter sampleCtx (0 + 1))⟩] :=
  wandb_log_per_epoch sampleCtx sampleCtx_good 0 (by decide)

theorem confusion_matrix_once_witness :
    ∃ st, mainLoop sampleCtx = .ok st ∧
      st.trace.filter isPlot =
        (if sampleCtx.epochs = 0 then []
         else [Event.plot (vLabels sampleCtx (sampleCtx.epochs - 1))
                 (vPreds sampleCtx (sampleCtx.epochs - 1)) sampleCtx.classes]) :=
  confusion_matrix_once sampleCtx sampleCtx_good

theorem collectClass_length_le (d : DataCtx) (cls : String) :
    (collectClass d cls).length ≤ d.videos_per_class := by
  rw [collectClass, List.length_take]
  exact min_le_left _ _

theorem collectAux_length {d : DataCtx} (cs : List String) (i : ℕ) :
    (collectAux d i cs).2.length = (collectAux d i cs).1.length := by
  induction cs generalizing i with
  | nil => rfl
  | cons cls rest ih => simp [collectAux, ih (i + 1)]

theorem zip_replicate_self {α : Type} (l : List α) (a : ℕ) :
    l.zip (List.replicate l.length a) = l.map (fun x => (x, a)) := by
  induction l with
  | nil => rfl
  | cons x xs ih => simp [List.replicate_succ, ih]

theorem filter_label_map (sub : List String) (i t : ℕ) :
    (sub.map (fun p => (p, i))).filter (fun pt => pt.2 == t) =
      if i = t then sub.map (fun p => (p, t)) else [] := by
  by_cases h : i = t
  · subst h
    rw [if_pos rfl, List.filter_map]
    have hcomp : ((fun pt : String × ℕ => pt.2 == i) ∘ fun p : String => (p, i)) =
        fun _ => true := by
      funext p
      simp
    rw [hcomp, List.filter_true]
  · simp [List.filter_map, Function.comp, h]

/-- The collected (path, target) pairs with target `t` are exactly the
paths collected for the class at position `t - i` of the remaining class
list, labelled `t`. -/
theorem collectAux_zip_filter (d : DataCtx) (cs : List String) (i t : ℕ) :
    ((collectAux d i cs).1.zip (collectAux d i cs).2).filter (fun pt => pt.2 == t) =
      if i ≤ t ∧ t - i < cs.length
        then (collectClass d (cs.getD (t - i) "")).map (fun p => (p, t))
        else [] := by
  induction cs generalizing i with
  | nil => simp [collectAux]
  | cons cls rest ih =>
      have hzip : (collectAux d i (cls :: rest)).1.zip (collectAux d i (cls :: rest)).2 =
          (collectClass d cls).map (fun p => (p, i)) ++
            ((collectAux d (i + 1) rest).1.zip (collectAux d (i + 1) rest).2) := by
        rw [collectAux]
        show ((collectClass d cls ++ _).zip (List.replicate (collectClass d cls).length i ++ _)) = _
        rw [List.zip_append (by simp), zip_replicate_self]
      rw [hzip, List.filter_append, filter_label_map, ih]
      simp only [List.length_cons, List.getD]
      by_cases h1 : i = t
      · subst h1
        have h2 : ¬ (i + 1 ≤ i ∧ i - (i + 1) < rest.length) := by omega
        have h3 : i ≤ i ∧ i - i < rest.length + 1 := by omega
        rw [if_pos rfl, if_neg h2, if_pos h3, List.append_nil, Nat.sub_self]
        rfl
      · rw [if_neg h1, List.nil_append]
        by_cases h2 : i + 1 ≤ t ∧ t - (i + 1) < rest.length
        · have h3 : i ≤ t ∧ t - i < rest.length + 1 := by omega
          have h4 : t - i = (t - (i + 1)) + 1 := by omega
          rw [if_pos h2, if_pos h3, h4]
          rfl
        · have h3 : ¬ (i ≤ t ∧ t - i < rest.length + 1) := by omega
          rw [if_neg h2, if_neg h3]

/-- Indexing a zip of two equal-length lists by all positions in order
rebuilds the zip. -/
theorem map_getD_range (X : List String) (Y : List ℕ) (h : Y.length = X.length) :
    (List.range X.length).map (fun i => (X.getD i "", Y.getD i 0)) = X.zip Y := by
  induction X generalizing Y with
  | nil => simp
  | cons x xs ih =>
      cases Y with
      | nil => simp at h
      | cons y ys =>
          rw [List.length_cons, List.range_succ_eq_map, List.map_cons, List.map_map]
          have h' : ys.length = xs.length := by simpa using h
          have : ((fun i => ((x :: xs).getD i "", (y :: ys).getD i 0)) ∘ Nat.succ) =
              fun i => (xs.getD i "", ys.getD i 0) := by
            funext i
            simp [Function.comp, List.getD_cons_succ]
          rw [this, ih ys h']
          simp [List.getD_cons_zero]

/-- The test-index count `ceil(test_size * n)` for `test_size = 1/5` never
exceeds `n`. -/
theorem n_test_le (n : ℕ) : Nat.ceil ((1 : ℚ) / 5 * (n : ℚ)) ≤ n := by
  rw [Nat.ceil_le]
  rw [div_mul_eq_mul_div, one_mul]
  exact div_le_self (by positivity) (by norm_num)

theorem tts_val_paths_length (entropy : ℕ) (rs : Option ℕ) (X : List String) (Y : List ℕ) :
    (train_test_split entropy rs ((1 : ℚ) / 5) X Y).2.1.length =
      Nat.ceil ((1 : ℚ) / 5 * (X.length : ℚ)) := by
  unfold train_test_split
  simp only [List.length_map, List.length_take, List.length_rotate, List.length_range]
  exact min_eq_left (n_test_le X.length)

theorem tts_val_targets_length (entropy : ℕ) (rs : Option ℕ) (X : List String) (Y : List ℕ) :
    (train_test_split entropy rs ((1 : ℚ) / 5) X Y).2.2.2.length =
      (train_test_split entropy rs ((1 : ℚ) / 5) X Y).2.1.length := by
  unfold train_test_split
  simp

theorem tts_train_paths_length (entropy : ℕ) (rs : Option ℕ) (X : List String) (Y : List ℕ) :
    (train_test_split entropy rs ((1 : ℚ) / 5) X Y).1.length =
      X.length - Nat.ceil ((1 : ℚ) / 5 * (X.length : ℚ)) := by
  unfold train_test_split
  simp [List.length_drop, List.length_rotate, List.length_range]

/-- The split only permutes and partitions the (path, target) pairs. -/
theorem tts_perm (entropy : ℕ) (rs : Option ℕ) (X : List String) (Y : List ℕ)
    (h : Y.length = X.length) :
    ((train_test_split entropy rs ((1 : ℚ) / 5) X Y).1.zip
        (train_test_split entropy rs ((1 : ℚ) / 5) X Y).2.2.1 ++
      (train_test_split entropy rs ((1 : ℚ) / 5) X Y).2.1.zip
        (train_test_split entropy rs ((1 : ℚ) / 5) X Y).2.2.2).Perm (X.zip Y) := by
  unfold train_test_split
  simp only
  rw [List.zip_map', List.zip_map', ← List.map_append]
  have hperm :
      (((List.range X.length).rotate
          (lcg (match rs with | some s => s | none => entropy))).drop
            (Nat.ceil ((1 : ℚ) / 5 * (X.length : ℚ))) ++
        ((List.range X.length).rotate
          (lcg (match rs with | some s => s | none => entropy))).take
            (Nat.ceil ((1 : ℚ) / 5 * (X.length : ℚ)))).Perm (List.range X.length) := by
    refine List.Perm.trans List.perm_append_comm ?_
    rw [List.take_append_drop]
    exact List.rotate_perm _ _
  exact List.Perm.trans (hperm.map _) (by rw [map_getD_range X Y h])

/-- C7: for every class index `t`, at most `videos_per_class` paths are
collected, each labelled with the class position `t`; the combined lists
are split into train and validation portions with the validation portion
comprising `ceil(0.2 * n)` of the `n` items (`test_size=0.2` rounded up —
exactly 20% when `5 ∣ n`), and the path–target pairing survives the split
as a permutation of a partition. -/
theorem dataset_collection_and_split (d : DataCtx) (entropy t : ℕ) :
    ∃ fp tg tp vp tt vt,
      collect d CFG.classes = (fp, tg) ∧
      loadAndSplit entropy d = (tp, vp, tt, vt) ∧
      tg.length = fp.length ∧
      (fp.zip tg).filter (fun pt => pt.2 == t) =
        (if t < CFG.classes.length
          then (collectClass d (CFG.classes.getD t "")).map (fun p => (p, t)) else []) ∧
      ((fp.zip tg).filter (fun pt => pt.2 == t)).length ≤ d.videos_per_class ∧
      vp.length = Nat.ceil ((1 : ℚ) / 5 * (fp.length : ℚ)) ∧
      vt.length = vp.length ∧
      tp.length = fp.length - vp.length ∧
      (5 ∣ fp.length → 5 * vp.length = fp.length) ∧
      (tp.zip tt ++ vp.zip vt).Perm (fp.zip tg) := by
  have hfilter := collectAux_zip_filter d CFG.classes 0 t
  simp only [Nat.zero_le, Nat.sub_zero, true_and] at hfilter
  have hlen : (collect d CFG.classes).2.length = (collect d CFG.classes).1.length :=
    collectAux_length CFG.classes 0
  refine ⟨(collect d CFG.classes).1, (collect d CFG.classes).2,
    (loadAndSplit entropy d).1, (loadAndSplit entropy d).2.1,
    (loadAndSplit entropy d).2.2.1, (loadAndSplit entropy d).2.2.2,
    rfl, rfl, hlen, hfilter, ?_, ?_, ?_, ?_, ?_, ?_⟩
  · unfold collect
    rw [hfilter]
    by_cases h : t < CFG.classes.length
    · rw [if_pos h, List.length_map]
      exact collectClass_length_le d _
    · rw [if_neg h]
      exact Nat.zero_le _
  · exact tts_val_paths_length entropy (some 42) _ _
  · exact tts_val_targets_length entropy (some 42) _ _
  · unfold loadAndSplit
    rw [tts_train_paths_length entropy (some 42) (collect d CFG.classes).1
        (collect d CFG.classes).2,
      tts_val_paths_length entropy (some 42) (collect d CFG.classes).1
        (collect d CFG.classes).2]
  · rintro ⟨c, hc⟩
    unfold loadAndSplit
    rw [tts_val_paths_length entropy (some 42) (collect d CFG.classes).1
        (collect d CFG.classes).2, hc]
    have : (1 : ℚ) / 5 * ((5 * c : ℕ) : ℚ) = (c : ℚ) := by
      push_cast
      ring
    rw [this, Nat.ceil_natCast]
  · exact tts_perm entropy (some 42) _ _ hlen

set_option maxRecDepth 40000 in
/-- C7 counterexample: with 6 collected items the validation portion has 2
items, which is not 20% of the items (20% of 6 is 6/5). -/
theorem dataset_split_not_exact_20pct :
    (collect cexData CFG.classes).1.length = 6 ∧
    (loadAndSplit 0 cexData).2.1.length = 2 ∧
    ¬ (((loadAndSplit 0 cexData).2.1.length : ℚ) =
        1 / 5 * ((collect cexData CFG.classes).1.length : ℚ)) := by
  have h6 : (collect cexData CFG.classes).1.length = 6 := by decide
  have h2 : (loadAndSplit 0 cexData).2.1.length = 2 := by
    unfold loadAndSplit
    rw [tts_val_paths_length 0 (some 42) (collect cexData CFG.classes).1
        (collect cexData CFG.classes).2, h6]
    rw [Nat.ceil_eq_iff (by norm_num)]
    constructor <;> norm_num
  refine ⟨h6, h2, ?_⟩
  rw [h6, h2]
  norm_num

/-- `collect` reads the filesystem only through the 101 glob patterns
`{dataset_path}/UCF101/train/{cls}/**.avi`. -/
theorem collectAux_congr (d1 d2 : DataCtx) (cs : List String) (i : ℕ)
    (hvpc : d1.videos_per_class = d2.videos_per_class)
    (_hdp : d1.dataset_path = d2.dataset_path)
    (hglob : ∀ cls ∈ cs,
      d1.globFn (globPattern d1.dataset_path cls) = d2.globFn (globPattern d2.dataset_path cls)) :
    collectAux d1 i cs = collectAux d2 i cs := by
  induction cs generalizing i with
  | nil => rfl
  | cons cls rest ih =>
      have hcls : collectClass d1 cls = collectClass d2 cls := by
        rw [collectClass, collectClass, hvpc, hglob cls (List.mem_cons_self _ _)]
      rw [collectAux, collectAux, hcls,
        ih (i + 1) (fun c hc => hglob c (List.mem_cons_of_mem _ hc))]

/-- C8: whatever `--dataset` names (including `ucf11`, whose configured
`num_classes` is 11), the model's output dimension is
`len(CFG.classes) = 101`, and file-path discovery reads the filesystem
only through the 101 `UCF101/train` class-directory glob patterns. -/
theorem model_and_glob_ignore_dataset_choice :
    (∀ ds : CFG.DatasetChoice, modelOutputDim ds = 101) ∧
    CFG.num_classes CFG.DatasetChoice.ucf11 = 11 ∧
    CFG.classes.length = 101 ∧
    (∀ dp cls, globPattern dp cls = dp ++ "/UCF101/train/" ++ cls ++ "/**.avi") ∧
    (∀ d1 d2 : DataCtx, d1.videos_per_class = d2.videos_per_class →
      d1.dataset_path = d2.dataset_path →
      (∀ cls ∈ CFG.classes, d1.globFn (globPattern d1.dataset_path cls) =
        d2.globFn (globPattern d2.dataset_path cls)) →
      collect d1 CFG.classes = collect d2 CFG.classes) := by
  refine ⟨fun ds => rfl, rfl, rfl, fun dp cls => rfl, ?_⟩
  intro d1 d2 hvpc hdp hglob
  exact collectAux_congr d1 d2 CFG.classes 0 hvpc hdp hglob

theorem model_and_glob_ignore_dataset_choice_witness :
    collect cexData CFG.classes = collect cexData2 CFG.classes :=
  model_and_glob_ignore_dataset_choice.2.2.2.2 cexData cexData2 rfl rfl (by decide)

/-- C9: `train_epoch` and `validate` finish by dividing the accumulated
loss by the number of batches and the correct count by the number of
samples; when the dataloader yields a batch with a sample both divisors
are nonzero and both functions return, and on an empty dataloader both
raise a division-by-zero error instead of returning. -/
theorem metric_divisions_welldefined :
    (∀ bs : List BatchOutcome, HasSample bs →
      0 < bs.length ∧ 0 < totalSamples bs ∧
      train_epoch bs = .ok (totalLoss bs / (bs.length : ℚ),
        100 * (totalCorrect bs : ℚ) / (totalSamples bs : ℚ)) ∧
      validate bs = .ok (totalLoss bs / (bs.length : ℚ),
        100 * (totalCorrect bs : ℚ) / (totalSamples bs : ℚ),
        bs.flatMap (·.predicted), bs.flatMap (·.labels))) ∧
    train_epoch [] = .error zeroDivisionError ∧
    validate [] = .error zeroDivisionError := by
  refine ⟨fun bs h => ⟨length_pos_of_hasSample h, totalSamples_pos h,
    train_epoch_ok h, validate_ok h⟩, rfl, rfl⟩

theorem metric_divisions_welldefined_witness :
    0 < ([⟨1, [0, 1], [0, 1]⟩] : List BatchOutcome).length ∧
    0 < totalSamples [⟨1, [0, 1], [0, 1]⟩] ∧
    train_epoch [⟨1, [0, 1], [0, 1]⟩] =
      .ok (totalLoss [⟨1, [0, 1], [0, 1]⟩] / (([⟨1, [0, 1], [0, 1]⟩] :
          List BatchOutcome).length : ℚ),
        100 * (totalCorrect [⟨1, [0, 1], [0, 1]⟩] : ℚ) /
          (totalSamples [⟨1, [0, 1], [0, 1]⟩] : ℚ)) ∧
    validate [⟨1, [0, 1], [0, 1]⟩] =
      .ok (totalLoss [⟨1, [0, 1], [0, 1]⟩] / (([⟨1, [0, 1], [0, 1]⟩] :
          List BatchOutcome).length : ℚ),
        100 * (totalCorrect [⟨1, [0, 1], [0, 1]⟩] : ℚ) /
          (totalSamples [⟨1, [0, 1], [0, 1]⟩] : ℚ),
        ([⟨1, [0, 1], [0, 1]⟩] : List BatchOutcome).flatMap (·.predicted),
        ([⟨1, [0, 1], [0, 1]⟩] : List BatchOutcome).flatMap (·.labels)) :=
  metric_divisions_welldefined.1 [⟨1, [0, 1], [0, 1]⟩]
    ⟨⟨1, [0, 1], [0, 1]⟩, by simp, by decide⟩

/-- C10: with `random_state=42` the split is a pure function of the input
lists — two runs under arbitrary (and arbitrarily different) ambient
entropy produce identical train paths, validation paths, train targets and
validation targets; likewise for the whole dataset phase. -/
theorem split_deterministic (e1 e2 : ℕ) (d : DataCtx) (X : List String) (Y : List ℕ) :
    train_test_split e1 (some 42) ((1 : ℚ) / 5) X Y =
      train_test_split e2 (some 42) ((1 : ℚ) / 5) X Y ∧
    loadAndSplit e1 d = loadAndSplit e2 d :=
  ⟨rfl, rfl⟩

end Train
